import Mathlib

/-!
Verification of the extraction orchestrator of this repository: the
Instagram Graph-API client (`src/functions/meta/extraction.py`) and the
newspaper scrapers (`src/functions/scratch/newspaper_scraper/newspapers_scraper_v2.py`,
`src/functions/web_scrapping/web_scrapping.py`).

Python strings are modelled as `List Char`, dictionaries as
insertion-ordered association lists, the HTTP transport and the XPath
engine as oracle functions supplied to the model (the specification
declares them external collaborators), and the unbounded `while` loop of
the paginator as a fuel-indexed function whose `none` result means "still
looping after `fuel` iterations".
-/

/-- Python strings, modelled as lists of characters. -/
abbrev Str : Type := List Char

/-- Python `str.strip()`: remove leading and trailing whitespace. -/
def strip (s : Str) : Str :=
  List.reverse (List.dropWhile Char.isWhitespace
    (List.reverse (List.dropWhile Char.isWhitespace s)))

/-- Python `" ".join(xs)`: interleave a single space between the pieces. -/
def joinSpace : List Str → Str
  | [] => []
  | [x] => x
  | x :: y :: rest => x ++ ' ' :: joinSpace (y :: rest)

/-- Python `s.replace(old, new)` (left-to-right, non-overlapping), written
with explicit fuel so that it is structurally recursive; `replaceAll`
below instantiates the fuel with the length of the string, which is
always enough.  A match is only taken for a nonempty pattern (every use
in the repository has a nonempty pattern). -/
def replaceAllF (old new : Str) : Nat → Str → Str
  | _, [] => []
  | 0, s => s
  | fuel + 1, c :: rest =>
    if old ≠ [] ∧ old <+: (c :: rest) then
      new ++ replaceAllF old new fuel (List.drop old.length (c :: rest))
    else
      c :: replaceAllF old new fuel rest

/-- Python `s.replace(old, new)`. -/
def replaceAll (old new s : Str) : Str :=
  replaceAllF old new s.length s

/-- The fixed redaction marker of `InstagramMetaClient._scrub`. -/
def redactedMarker : Str := "REDACTED_TOKEN".toList

/-- `InstagramMetaClient._scrub`: replace every occurrence of the access
token by `"REDACTED_TOKEN"`; a falsy (empty) string is returned as is. -/
def scrub (token text : Str) : Str :=
  if text = [] then text else replaceAll token redactedMarker text

theorem replaceAllF_nil (old new : Str) (fuel : Nat) :
    replaceAllF old new fuel [] = [] := by
  cases fuel <;> rfl

theorem replaceAllF_cons_pos (old new : Str) (fuel : Nat) (c : Char) (rest : Str)
    (h : old ≠ [] ∧ old <+: (c :: rest)) :
    replaceAllF old new (fuel + 1) (c :: rest) =
      new ++ replaceAllF old new fuel (List.drop old.length (c :: rest)) := by
  simp only [replaceAllF, if_pos h]

theorem replaceAllF_cons_neg (old new : Str) (fuel : Nat) (c : Char) (rest : Str)
    (h : ¬ (old ≠ [] ∧ old <+: (c :: rest))) :
    replaceAllF old new (fuel + 1) (c :: rest) =
      c :: replaceAllF old new fuel rest := by
  simp only [replaceAllF, if_neg h]

/-- Prefix reflection: when the replacement text is nonempty and the
candidate prefix `v` avoids every character of the replacement text, a
prefix of the replaced string is already a prefix of the original. -/
theorem prefix_of_replaceAllF (old new : Str) (hnew : new ≠ []) :
    ∀ (fuel : Nat) (s v : Str), s.length ≤ fuel → v ≠ [] →
      (∀ c ∈ v, c ∉ new) → v <+: replaceAllF old new fuel s → v <+: s := by
  intro fuel
  induction fuel with
  | zero =>
    intro s v hlen hv _ hp
    cases s with
    | nil =>
      rw [replaceAllF_nil] at hp
      exact absurd (List.prefix_nil.mp hp) hv
    | cons c rest => simp at hlen
  | succ fuel ih =>
    intro s v hlen hv hd hp
    cases s with
    | nil =>
      rw [replaceAllF_nil] at hp
      exact absurd (List.prefix_nil.mp hp) hv
    | cons c rest =>
      by_cases hc : old ≠ [] ∧ old <+: (c :: rest)
      · rw [replaceAllF_cons_pos old new fuel c rest hc] at hp
        cases v with
        | nil => exact absurd rfl hv
        | cons v₀ v' =>
          cases new with
          | nil => exact absurd rfl hnew
          | cons d new' =>
            rw [List.cons_append] at hp
            have h₀ : v₀ = d := (List.cons_prefix_cons.mp hp).1
            exact absurd (List.mem_cons_self d new')
              (h₀ ▸ hd v₀ (List.mem_cons_self v₀ v'))
      · rw [replaceAllF_cons_neg old new fuel c rest hc] at hp
        cases v with
        | nil => exact absurd rfl hv
        | cons v₀ v' =>
          obtain ⟨h₀, hp'⟩ := List.cons_prefix_cons.mp hp
          subst h₀
          rcases eq_or_ne v' [] with hv' | hv'
          · subst hv'
            exact List.cons_prefix_cons.mpr ⟨rfl, List.nil_prefix⟩
          · have hrest : rest.length ≤ fuel := by
              simp only [List.length_cons] at hlen; omega
            have hrec : v' <+: rest :=
              ih rest v' hrest hv' (fun x hx => hd x (List.mem_cons_of_mem _ hx)) hp'
            exact List.cons_prefix_cons.mpr ⟨rfl, hrec⟩

/-- A nonempty pattern whose characters all avoid the block `m` cannot
occur as an infix of `m ++ R` unless it already occurs in `R`. -/
theorem not_infix_append_block (old : Str) (ho : old ≠ []) :
    ∀ (m R : Str), (∀ d ∈ m, d ∉ old) → ¬ old <:+: R → ¬ old <:+: (m ++ R) := by
  intro m
  induction m with
  | nil => intro R _ hR; simpa using hR
  | cons d m' ih =>
    intro R hd hR hinf
    rcases List.infix_cons_iff.mp hinf with hpre | hinf'
    · cases old with
      | nil => exact ho rfl
      | cons o old'' =>
        have : o = d := (List.cons_prefix_cons.mp hpre).1
        exact hd d (List.mem_cons_self d m') (this ▸ List.mem_cons_self o old'')
    · exact ih R (fun x hx => hd x (List.mem_cons_of_mem _ hx)) hR hinf'

/-- Core redaction lemma: after replacing every occurrence of a nonempty
pattern by a nonempty replacement sharing no character with the pattern,
the pattern no longer occurs anywhere in the result. -/
theorem not_infix_replaceAllF (old new : Str) (ho : old ≠ []) (hn : new ≠ [])
    (hd : ∀ c ∈ old, c ∉ new) :
    ∀ (fuel : Nat) (s : Str), s.length ≤ fuel →
      ¬ old <:+: replaceAllF old new fuel s := by
  intro fuel
  induction fuel with
  | zero =>
    intro s hlen
    cases s with
    | nil => rw [replaceAllF_nil]; simpa [List.infix_nil] using ho
    | cons c rest => simp at hlen
  | succ fuel ih =>
    intro s hlen
    cases s with
    | nil => rw [replaceAllF_nil]; simpa [List.infix_nil] using ho
    | cons c rest =>
      by_cases hc : old ≠ [] ∧ old <+: (c :: rest)
      · rw [replaceAllF_cons_pos old new fuel c rest hc]
        have hdrop : (List.drop old.length (c :: rest)).length ≤ fuel := by
          have h1 : 1 ≤ old.length := by
            cases old with
            | nil => exact absurd rfl ho
            | cons _ _ => simp
          simp only [List.length_drop]
          omega
        refine not_infix_append_block old ho new _ ?_ (ih _ hdrop)
        intro x hx hmem
        exact hd x hmem hx
      · rw [replaceAllF_cons_neg old new fuel c rest hc]
        intro hinf
        have hrest : rest.length ≤ fuel := by
          simp only [List.length_cons] at hlen; omega
        rcases List.infix_cons_iff.mp hinf with hpre | hinf'
        · cases old with
          | nil => exact ho rfl
          | cons o old'' =>
            obtain ⟨h₀, hp'⟩ := List.cons_prefix_cons.mp hpre
            subst h₀
            rcases eq_or_ne old'' [] with hod | hod
            · subst hod
              exact hc ⟨ho, List.cons_prefix_cons.mpr ⟨rfl, List.nil_prefix⟩⟩
            · have hrefl : old'' <+: rest :=
                prefix_of_replaceAllF (o :: old'') new hn fuel rest old'' hrest hod
                  (fun x hx => hd x (List.mem_cons_of_mem _ hx)) hp'
              exact hc ⟨ho, List.cons_prefix_cons.mpr ⟨rfl, hrefl⟩⟩
        · exact ih rest hrest hinf'

/-- `_scrub` output never contains the live token, as long as the token is
nonempty and shares no character with the redaction marker. -/
theorem scrub_no_token (token text : Str) (h1 : token ≠ [])
    (h2 : ∀ c ∈ token, c ∉ redactedMarker) : ¬ token <:+: scrub token text := by
  unfold scrub
  by_cases ht : text = []
  · rw [if_pos ht, ht]; simpa [List.infix_nil] using h1
  · rw [if_neg ht]
    exact not_infix_replaceAllF token redactedMarker h1 (by decide) h2
      text.length text (Nat.le_refl _)

/-! ## Model of `InstagramMetaClient` (src/functions/meta/extraction.py)

The HTTP transport (`requests.get`) is an oracle of type `Fetcher`; an
`Except.error` result models the call raising (a connection failure), an
`Except.ok` result carries the structured response.  `response.json()`
raising is modelled by the `jsonBody` field being an `Except.error`.
The JSON serializer `json.dumps` is an external collaborator per the
specification, so the model is parametric in a serializer `dumpsJ`;
`datetime.now` timestamps carry no verified content and are omitted from
the log-entry model. -/

/-- A JSON value, as returned by `response.json()`. -/
inductive Json where
  | null : Json
  | bool : Bool → Json
  | num : Int → Json
  | str : Str → Json
  | arr : List Json → Json
  | obj : List (Str × Json) → Json

/-- Lookup of a key in a JSON object (Python `d[key]` on a `dict`;
insertion-ordered unique keys, first match). -/
def lookupField : List (Str × Json) → Str → Option Json
  | [], _ => none
  | (k, v) :: rest, key => if k = key then some v else lookupField rest key

/-- The loop condition and continuation pointer of
`InstagramMetaClient._get_paginated_data`: `"paging" in response and
"next" in response["paging"]`, then `response["paging"]["next"]` used as
the next URL.  The model covers the shapes the program handles: an object
response whose `paging` member is an object whose `next` member is a
string (on any other `next` value the Python code would crash when
calling `.startswith` on a non-string). -/
def getNextStr (j : Json) : Option Str :=
  match j with
  | Json.obj fields =>
    match lookupField fields ("paging".toList) with
    | some (Json.obj pfields) =>
      match lookupField pfields ("next".toList) with
      | some (Json.str url) => some url
      | _ => none
    | _ => none
  | _ => none

/-- A Python `dict` of string query parameters (insertion-ordered). -/
abbrev ParamMap : Type := List (Str × Str)

/-- Python dict assignment `m[k] = v`: update in place if the key is
present, otherwise append at the end. -/
def setParam : ParamMap → Str → Str → ParamMap
  | [], k, v => [(k, v)]
  | (k', v') :: rest, k, v =>
    if k' = k then (k, v) :: rest else (k', v') :: setParam rest k v

/-- Python `m.pop(k)` on a unique-key dict: drop the binding of `k`. -/
def eraseParam (m : ParamMap) (k : Str) : ParamMap :=
  m.filter (fun kv => decide (kv.1 ≠ k))

/-- Python `m.get(k)`: first binding of `k`. -/
def lookupParam : ParamMap → Str → Option Str
  | [], _ => none
  | (k', v) :: rest, k => if k' = k then some v else lookupParam rest k

/-- The structured outcome of a successful `requests.get` call. -/
structure HttpResp where
  status_code : Int
  jsonBody : Except Str Json
  text : Str

/-- The HTTP transport oracle: URL and query parameters to either a
raised exception message (connection failure) or a response. -/
abbrev Fetcher : Type := Str → Option ParamMap → Except Str HttpResp

/-- One entry of `self.logs` (timestamp fields omitted; the
`parameters_used` map is recorded before the external `json.dumps`
serialization boundary). -/
structure LogEntry where
  endpoint_called : Str
  parameters_used : ParamMap
  raw_payload : Str
  status_code : Int
  payload_page : Nat

/-- The credential parameter name. -/
def accessTokenKey : Str := "access_token".toList

/-- The `safe_params` computed by `_log_step`: copy the dict and pop
`access_token`, or `{"url": str(params)}` when `params` is not a dict
(`None` is the only non-dict value the client ever passes). -/
def safeParams (params : Option ParamMap) : ParamMap :=
  match params with
  | some m => eraseParam m accessTokenKey
  | none => [("url".toList, "None".toList)]

/-- The log entry `_log_step` appends: parameters with the credential
popped, payload scrubbed (both the `json.dumps` branch and the raw-text
fallback branch pass through `_scrub`). -/
def logEntryOf (dumpsJ : Json → Str) (token endpoint : Str)
    (params : Option ParamMap) (resp : HttpResp) (page_num : Nat) : LogEntry :=
  ⟨endpoint,
   safeParams params,
   (match resp.jsonBody with
    | Except.ok j => scrub token (dumpsJ j)
    | Except.error _ => scrub token resp.text),
   resp.status_code,
   page_num⟩

/-- `InstagramMetaClient._log_step`: append one entry to `self.logs`.
Total by construction: the bare `except` of the source catches any
serialization failure and falls back to the raw text. -/
def log_step (dumpsJ : Json → Str) (token endpoint : Str)
    (params : Option ParamMap) (resp : HttpResp) (page_num : Nat)
    (logs : List LogEntry) : List LogEntry :=
  logs ++ [logEntryOf dumpsJ token endpoint params resp page_num]

/-- `self.base_url` for API version v21.0. -/
def baseUrl : Str := "https://graph.facebook.com/v21.0".toList

/-- The URL `_request` fetches: the path itself when already absolute,
otherwise `base_url/path`. -/
def requestUrl (path : Str) : Str :=
  if "http".toList <+: path then path else baseUrl ++ '/' :: path

/-- `path.split('?')[0]`, the endpoint recorded in the log. -/
def endpointOf (path : Str) : Str :=
  path.takeWhile (fun c => c != '?')

/-- The parameter dict of `_request` after the credential-insertion
step: when the URL does not already contain `access_token`, the live
token is assigned into the caller's dict (a `None` dict is first
replaced by a fresh empty one); otherwise the dict is left untouched. -/
def requestParams (token path : Str) (params : Option ParamMap) : Option ParamMap :=
  if accessTokenKey <:+: requestUrl path then params
  else some (setParam (params.getD []) accessTokenKey token)

/-- `InstagramMetaClient._request`.  Returns the parsed body (or an
`{"error": ...}` object), the caller's parameter dict as it stands after
the call (the source mutates the dict it was handed), and the log list
after the call.  A connection failure jumps to the `except` branch
before `_log_step` runs, so it appends nothing to the log; a body that
fails to parse as JSON raises in `return response.json()` after the log
entry was already appended. -/
def request (dumpsJ : Json → Str) (fetch : Fetcher) (token : Str)
    (path : Str) (params : Option ParamMap) (page_num : Nat)
    (logs : List LogEntry) : Json × Option ParamMap × List LogEntry :=
  let url := requestUrl path
  let params' := requestParams token path params
  match fetch url params' with
  | Except.error e => (Json.obj [("error".toList, Json.str e)], params', logs)
  | Except.ok resp =>
    let logs' := log_step dumpsJ token (endpointOf path) params' resp page_num logs
    match resp.jsonBody with
    | Except.ok j => (j, params', logs')
    | Except.error e => (Json.obj [("error".toList, Json.str e)], params', logs')

/-- The `while` loop of `_get_paginated_data`, indexed by fuel: `none`
means the loop is still running after `fuel` further fetches (the source
has no iteration cap, so the fuel is an observation bound of the model,
not a bound in the code). -/
def paginateLoop (dumpsJ : Json → Str) (fetch : Fetcher) (token : Str) :
    Nat → Json → List Json → Nat → List LogEntry →
    Option (List Json × List LogEntry)
  | fuel, response, all_data, page_num, logs =>
    match getNextStr response with
    | none => some (all_data, logs)
    | some url =>
      match fuel with
      | 0 => none
      | fuel' + 1 =>
        let res := request dumpsJ fetch token url none (page_num + 1) logs
        paginateLoop dumpsJ fetch token fuel' res.1 (all_data ++ [res.1])
          (page_num + 1) res.2.2

/-- `InstagramMetaClient._get_paginated_data`: fetch page 0 with the
supplied path and parameters, then follow `paging.next` URLs (fetched
with no extra parameters). -/
def getPaginatedData (dumpsJ : Json → Str) (fetch : Fetcher) (token : Str)
    (fuel : Nat) (path : Str) (params : ParamMap) (logs : List LogEntry) :
    Option (List Json × List LogEntry) :=
  let res := request dumpsJ fetch token path (some params) 0 logs
  paginateLoop dumpsJ fetch token fuel res.1 [res.1] 0 res.2.2

/-- Metric set for Reels/Clips. -/
def reelsMetrics : Str :=
  "clips_replays_count,comments,likes,plays,reach,saved,shares,total_interactions".toList

/-- Metric set for feed videos. -/
def videoMetrics : Str := "video_views,reach,saved,total_interactions".toList

/-- Metric set for images and carousels. -/
def imageMetrics : Str := "impressions,reach,saved,engagement".toList

/-- The metric-selection cascade of `InstagramMetaClient.get_media_insights`:
`media_product_type` is tested first, `media_type` only afterwards. -/
def selectMetrics (media_product_type media_type : Str) : Str :=
  if media_product_type = "REELS".toList ∨ media_product_type = "CLIPS".toList then
    reelsMetrics
  else if media_type = "VIDEO".toList then
    videoMetrics
  else
    imageMetrics

/-- `InstagramMetaClient.get_media_insights`: request the selected metric
set for one media object. -/
def getMediaInsights (dumpsJ : Json → Str) (fetch : Fetcher) (token : Str)
    (media_id media_product_type media_type : Str) (logs : List LogEntry) :
    Json × Option ParamMap × List LogEntry :=
  request dumpsJ fetch token (media_id ++ "/insights".toList)
    (some [("metric".toList, selectMetrics media_product_type media_type)]) 0 logs

/-! ## Model of the newspaper scrapers
(`newspapers_scraper_v2.py`).  The `lxml` tree and the XPath engine are
external collaborators: `get_tree` is an oracle returning `none` when the
fetch fails, the per-source selector calls are oracles over an abstract
tree type, returning `none`/`Except.error` when the underlying XPath
call raises.  `scraped_at` timestamps are omitted. -/

/-- The field dictionary of one extracted article. -/
abbrev ArtData : Type := List (Str × Str)

/-- First binding of a key in an insertion-ordered dict. -/
def assocLookup {β : Type} : List (Str × β) → Str → Option β
  | [], _ => none
  | (k', v) :: rest, k => if k' = k then some v else assocLookup rest k

/-- Python `k in d`. -/
def containsKey {β : Type} (m : List (Str × β)) (k : Str) : Bool :=
  (assocLookup m k).isSome

/-- The keys of a dict, in insertion order. -/
def keysOf {β : Type} (m : List (Str × β)) : List Str :=
  m.map Prod.fst

/-- The inner loop of `BaseNewspaperScraper.scrape` over the article links
of one listing page: skip a URL already present in `results`, skip a
failed article fetch, skip an article whose extraction raises, otherwise
insert the record (with the `newspaper` provenance field appended) at the
end of `results`. -/
def scrapeArticles {τ : Type} (getTree : Str → Option τ)
    (extractData : τ → Str → Option ArtData) (name : Str) :
    List Str → List (Str × ArtData) → List (Str × ArtData)
  | [], results => results
  | article_url :: rest, results =>
    if containsKey results article_url then
      scrapeArticles getTree extractData name rest results
    else
      match getTree article_url with
      | none => scrapeArticles getTree extractData name rest results
      | some t =>
        match extractData t article_url with
        | none => scrapeArticles getTree extractData name rest results
        | some dat =>
          scrapeArticles getTree extractData name rest
            (results ++ [(article_url, dat ++ [("newspaper".toList, name)])])

/-- The outer loop of `BaseNewspaperScraper.scrape` over the listing
pages: a failed listing fetch or a raising link extraction skips that
seed and continues. -/
def scrapeFrom {τ : Type} (getTree : Str → Option τ)
    (extractLinks : τ → Str → Option (List Str))
    (extractData : τ → Str → Option ArtData) (name : Str) :
    List Str → List (Str × ArtData) → List (Str × ArtData)
  | [], results => results
  | page_url :: rest, results =>
    match getTree page_url with
    | none => scrapeFrom getTree extractLinks extractData name rest results
    | some tree =>
      match extractLinks tree page_url with
      | none => scrapeFrom getTree extractLinks extractData name rest results
      | some links =>
        scrapeFrom getTree extractLinks extractData name rest
          (scrapeArticles getTree extractData name links results)

/-- `BaseNewspaperScraper.scrape`: run over all configured listing URLs,
starting from an empty result dict. -/
def scrape {τ : Type} (getTree : Str → Option τ)
    (extractLinks : τ → Str → Option (List Str))
    (extractData : τ → Str → Option ArtData) (name : Str)
    (urls : List Str) : List (Str × ArtData) :=
  scrapeFrom getTree extractLinks extractData name urls []

/-- The duplicate check of `NewspaperScraperOrchestrator.scrape_all` for
one portal: walk `portal_results`; a URL already present leaves
`all_results` unchanged and increments the duplicate counter, a fresh
URL is inserted at the end. -/
def mergePortal : List (Str × ArtData) → List (Str × ArtData) →
    List (Str × ArtData) × Nat
  | acc, [] => (acc, 0)
  | acc, kv :: rest =>
    if containsKey acc kv.1 then
      ((mergePortal acc rest).1, (mergePortal acc rest).2 + 1)
    else
      mergePortal (acc ++ [kv]) rest

/-- `scrape_all` folded over the portal result dicts in declaration
order (politeness delays carry no data and are omitted). -/
def scrapeAllFrom : List (Str × ArtData) → List (List (Str × ArtData)) →
    List (Str × ArtData)
  | acc, [] => acc
  | acc, p :: ps => scrapeAllFrom (mergePortal acc p).1 ps

/-- `NewspaperScraperOrchestrator.scrape_all` on the per-portal results. -/
def scrapeAll (portals : List (List (Str × ArtData))) : List (Str × ArtData) :=
  scrapeAllFrom [] portals

/-- Python `link.startswith('http')`. -/
def isAbsolute (l : Str) : Bool :=
  List.isPrefixOf "http".toList l

/-- The known domain used by the Los Andes scraper for relative links. -/
def losAndesDomain : Str := "https://www.losandes.com.ar".toList

/-- The per-link branch of `LosAndesScraper.extract_article_links`:
prefix the domain when the href is relative. -/
def losAndesResolve (l : Str) : Str :=
  if isAbsolute l then l else losAndesDomain ++ l

/-- `LosAndesScraper.extract_article_links` over the first hrefs the
XPath selectors yield, one per news column. -/
def losAndesLinks (hrefs : List Str) : List Str :=
  hrefs.map losAndesResolve

/-- `DiarioUnoScraper.extract_article_links` over the first href of each
`<article>` element: keep only the links that already start with
`http`. -/
def diarioUnoLinks (hrefs : List Str) : List Str :=
  hrefs.filter isAbsolute

/-- `ElSolScraper.extract_article_links`: keep only absolute links. -/
def elSolLinks (hrefs : List Str) : List Str :=
  hrefs.filter isAbsolute

/-- `MDZScraper.extract_article_links`: keep only absolute links. -/
def mdzLinks (hrefs : List Str) : List Str :=
  hrefs.filter isAbsolute

/-- The record produced by one article page extraction. -/
structure ArticleData where
  headline : Str
  summary : Str
  body : Str
  date : Str
  author : Str

/-- The outcome of one XPath selector call: `Except.error` when the call
raises, otherwise the list of matched text nodes. -/
abbrev SelRes : Type := Except Unit (List Str)

/-- `LosAndesScraper.extract_article_data`: the dict starts with every
field `""`; the root selector failing leaves all of them empty but still
returns the record; each field is then set inside its own `try/except`
from its own selector (`headline`/`date`/`author` take the first match
stripped and are left empty when there is no match, `summary` joins all
matches, `body` joins the stripped nonempty texts of the body block —
its two chained selectors are modelled as one combined outcome, `none`
standing for an empty `body_divs` match). -/
def losAndesArticleData (root : Except Unit Unit)
    (selHeadline selSummary selDate selAuthor : SelRes)
    (selBody : Except Unit (Option (List Str))) : ArticleData :=
  match root with
  | Except.error _ => ⟨[], [], [], [], []⟩
  | Except.ok _ =>
    ⟨(match selHeadline with
      | Except.ok (h :: _) => strip h
      | _ => []),
     (match selSummary with
      | Except.ok ts => strip (joinSpace ts)
      | Except.error _ => []),
     (match selBody with
      | Except.ok (some ts) =>
        strip (joinSpace (ts.filterMap
          (fun t => if strip t = [] then none else some (strip t))))
      | _ => []),
     (match selDate with
      | Except.ok (d :: _) => strip d
      | _ => []),
     (match selAuthor with
      | Except.ok (a :: _) => strip a
      | _ => [])⟩

/-! ## Behaviour of `_request` -/

theorem request_error (dumpsJ : Json → Str) (fetch : Fetcher) (token path : Str)
    (params : Option ParamMap) (page_num : Nat) (logs : List LogEntry) (e : Str)
    (hf : fetch (requestUrl path) (requestParams token path params) =
      Except.error e) :
    request dumpsJ fetch token path params page_num logs =
      (Json.obj [("error".toList, Json.str e)], requestParams token path params,
        logs) := by
  unfold request
  dsimp only
  rw [hf]

theorem request_ok (dumpsJ : Json → Str) (fetch : Fetcher) (token path : Str)
    (params : Option ParamMap) (page_num : Nat) (logs : List LogEntry)
    (resp : HttpResp) (j : Json)
    (hf : fetch (requestUrl path) (requestParams token path params) =
      Except.ok resp)
    (hj : resp.jsonBody = Except.ok j) :
    request dumpsJ fetch token path params page_num logs =
      (j, requestParams token path params,
        logs ++ [logEntryOf dumpsJ token (endpointOf path)
          (requestParams token path params) resp page_num]) := by
  unfold request
  dsimp only
  rw [hf]
  dsimp only
  unfold log_step
  rw [hj]

theorem request_ok_badjson (dumpsJ : Json → Str) (fetch : Fetcher) (token path : Str)
    (params : Option ParamMap) (page_num : Nat) (logs : List LogEntry)
    (resp : HttpResp) (e : Str)
    (hf : fetch (requestUrl path) (requestParams token path params) =
      Except.ok resp)
    (hj : resp.jsonBody = Except.error e) :
    request dumpsJ fetch token path params page_num logs =
      (Json.obj [("error".toList, Json.str e)], requestParams token path params,
        logs ++ [logEntryOf dumpsJ token (endpointOf path)
          (requestParams token path params) resp page_num]) := by
  unfold request
  dsimp only
  rw [hf]
  dsimp only
  unfold log_step
  rw [hj]

theorem lookupParam_setParam (m : ParamMap) (k v : Str) :
    lookupParam (setParam m k v) k = some v := by
  induction m with
  | nil => simp [setParam, lookupParam]
  | cons kv rest ih =>
    obtain ⟨k', v'⟩ := kv
    by_cases h : k' = k
    · simp [setParam, lookupParam, h]
    · simp [setParam, lookupParam, h, ih]

/-- The outgoing parameter dict after any `_request` call is exactly the
credential-insertion result, whatever the transport returns. -/
theorem request_params_eq (dumpsJ : Json → Str) (fetch : Fetcher)
    (token path : Str) (params : Option ParamMap) (page_num : Nat)
    (logs : List LogEntry) :
    (request dumpsJ fetch token path params page_num logs).2.1 =
      requestParams token path params := by
  cases hfetch : fetch (requestUrl path) (requestParams token path params) with
  | error e =>
    rw [request_error dumpsJ fetch token path params page_num logs e hfetch]
  | ok resp =>
    cases hj : resp.jsonBody with
    | ok j =>
      rw [request_ok dumpsJ fetch token path params page_num logs resp j hfetch hj]
    | error e =>
      rw [request_ok_badjson dumpsJ fetch token path params page_num logs resp e hfetch hj]

/-! ## Fixtures for concrete instantiations -/

/-- Stand-in for the external `json.dumps` collaborator, used only to
instantiate the serializer parameter in concrete runs. -/
def dumpsW : Json → Str
  | Json.str s => '"' :: (s ++ ['"'])
  | _ => "{}".toList

/-- A transport oracle whose GET always raises: every call is a
connection failure. -/
def fetchFail : Fetcher := fun _ _ => Except.error "connection error".toList

/-- A response whose body is not valid JSON: `response.json()` raises. -/
def respBadJson : HttpResp := ⟨500, Except.error "Expecting value".toList, "hello".toList⟩

/-! ## C9: metric-set selection rule -/

/-- C9: `get_media_insights` selects the metric set with
`media_product_type` checked before `media_type`: `REELS`/`CLIPS`
requests the reels metric set regardless of `media_type`; otherwise
`media_type = "VIDEO"` requests the video metric set; otherwise the
image/carousel metric set is requested — and the insights request
carries exactly the selected set as its `metric` parameter. -/
theorem c9_metric_rule (mpt mt : Str) :
    ((mpt = "REELS".toList ∨ mpt = "CLIPS".toList) →
      selectMetrics mpt mt = reelsMetrics) ∧
    (¬ (mpt = "REELS".toList ∨ mpt = "CLIPS".toList) → mt = "VIDEO".toList →
      selectMetrics mpt mt = videoMetrics) ∧
    (¬ (mpt = "REELS".toList ∨ mpt = "CLIPS".toList) → mt ≠ "VIDEO".toList →
      selectMetrics mpt mt = imageMetrics) ∧
    (∀ (dumpsJ : Json → Str) (fetch : Fetcher) (token media_id : Str)
      (logs : List LogEntry),
      getMediaInsights dumpsJ fetch token media_id mpt mt logs =
        request dumpsJ fetch token (media_id ++ "/insights".toList)
          (some [("metric".toList, selectMetrics mpt mt)]) 0 logs) := by
  refine ⟨?_, ?_, ?_, fun _ _ _ _ _ => rfl⟩
  · intro h; simp only [selectMetrics, if_pos h]
  · intro h hv; simp only [selectMetrics, if_neg h, if_pos hv]
  · intro h hv; simp only [selectMetrics, if_neg h, if_neg hv]

/-- C9 witness: a REELS record requests the reels metric set even though
its `media_type` is `VIDEO`. -/
theorem c9_metric_rule_witness :
    ("REELS".toList = "REELS".toList ∨ "REELS".toList = "CLIPS".toList) ∧
    selectMetrics "REELS".toList "VIDEO".toList = reelsMetrics :=
  ⟨Or.inl rfl, (c9_metric_rule "REELS".toList "VIDEO".toList).1 (Or.inl rfl)⟩

/-! ## C10: `_request` mutates the caller's parameter dict -/

/-- C10: a `_request` call with a non-None params dict whose request URL
does not contain `access_token` leaves the live credential in the
caller's dict under the key `access_token` (the model passes the dict
state explicitly; the source performs the assignment on the dict object
it was handed, without copying). -/
theorem c10_request_inserts_token (dumpsJ : Json → Str) (fetch : Fetcher)
    (token path : Str) (m : ParamMap) (page_num : Nat) (logs : List LogEntry)
    (h : ¬ accessTokenKey <:+: requestUrl path) :
    (request dumpsJ fetch token path (some m) page_num logs).2.1 =
      some (setParam m accessTokenKey token) ∧
    lookupParam (setParam m accessTokenKey token) accessTokenKey = some token := by
  constructor
  · rw [request_params_eq]
    unfold requestParams
    rw [if_neg h]
    rfl
  · exact lookupParam_setParam m accessTokenKey token

/-- C10 witness: a media request leaves the secret in the caller's
`fields` dict. -/
theorem c10_request_inserts_token_witness :
    ¬ accessTokenKey <:+: requestUrl "17841401240132992/media".toList ∧
    ((request dumpsW fetchFail "EAAGtoken123".toList
        "17841401240132992/media".toList
        (some [("fields".toList, "id,caption".toList)]) 0 []).2.1 =
      some (setParam [("fields".toList, "id,caption".toList)] accessTokenKey
        "EAAGtoken123".toList) ∧
     lookupParam (setParam [("fields".toList, "id,caption".toList)] accessTokenKey
        "EAAGtoken123".toList) accessTokenKey = some "EAAGtoken123".toList) :=
  ⟨by decide, c10_request_inserts_token dumpsW fetchFail "EAAGtoken123".toList
    "17841401240132992/media".toList [("fields".toList, "id,caption".toList)] 0 []
    (by decide)⟩

/-! ## C8: `_log_step` totality and serialization fallback -/

/-- C8 counterexample: when `response.json()` raises, the recorded
payload is exactly the (scrubbed) raw response text — here the literal
`"hello"` — with no error marker appended, contradicting the claim that
the fallback records the raw text together with an error marker. -/
theorem c8_counterexample :
    (logEntryOf dumpsW "zz".toList "ep".toList none respBadJson 0).raw_payload =
      "hello".toList := by
  decide

/-- C8 (amended): `_log_step` never raises (it is total on the modelled
inputs and always appends exactly one entry), and on serialization
failure it falls back to recording the scrubbed raw response text — no
error marker is added. -/
theorem c8_log_step_total_fallback (dumpsJ : Json → Str) (token endpoint : Str)
    (params : Option ParamMap) (resp : HttpResp) (page_num : Nat)
    (logs : List LogEntry) (msg : Str) (h : resp.jsonBody = Except.error msg) :
    log_step dumpsJ token endpoint params resp page_num logs =
      logs ++ [logEntryOf dumpsJ token endpoint params resp page_num] ∧
    (logEntryOf dumpsJ token endpoint params resp page_num).raw_payload =
      scrub token resp.text := by
  refine ⟨rfl, ?_⟩
  simp only [logEntryOf, h]

/-- C8 witness: the fallback on a concrete non-JSON response. -/
theorem c8_log_step_total_fallback_witness :
    respBadJson.jsonBody = Except.error "Expecting value".toList ∧
    (log_step dumpsW "zz".toList "ep".toList none respBadJson 0 [] =
      [] ++ [logEntryOf dumpsW "zz".toList "ep".toList none respBadJson 0] ∧
     (logEntryOf dumpsW "zz".toList "ep".toList none respBadJson 0).raw_payload =
      scrub "zz".toList respBadJson.text) :=
  ⟨rfl, c8_log_step_total_fallback dumpsW "zz".toList "ep".toList none respBadJson
    0 [] "Expecting value".toList rfl⟩

/-! ## C5: logging of fetch attempts -/

/-- C5 counterexample: a fetch attempt that fails with a connection
failure appends zero log entries — not the one entry the claim
requires (the source's `_log_step` call sits after `requests.get`
inside the same `try`, so the `except` path skips it). -/
theorem c5_counterexample :
    ((request dumpsW fetchFail "tok".toList "17841401240132992/media".toList
        (some [("fields".toList, "id".toList)]) 0 []).2.2).length = 0 := by
  rfl

/-- C5 (amended): a fetch attempt whose GET succeeds appends exactly one
log entry, whether or not the body parses as JSON; a fetch attempt that
raises (connection failure) appends no log entry and yields an
`{"error": ...}` object in place of data, contributing no record. -/
theorem c5_request_logging (dumpsJ : Json → Str) (fetch : Fetcher)
    (token path : Str) (params : Option ParamMap) (page_num : Nat)
    (logs : List LogEntry) :
    (∀ e, fetch (requestUrl path) (requestParams token path params) =
        Except.error e →
      (request dumpsJ fetch token path params page_num logs).2.2 = logs ∧
      (request dumpsJ fetch token path params page_num logs).1 =
        Json.obj [("error".toList, Json.str e)]) ∧
    (∀ resp, fetch (requestUrl path) (requestParams token path params) =
        Except.ok resp →
      (request dumpsJ fetch token path params page_num logs).2.2 =
        logs ++ [logEntryOf dumpsJ token (endpointOf path)
          (requestParams token path params) resp page_num]) := by
  constructor
  · intro e he
    rw [request_error dumpsJ fetch token path params page_num logs e he]
    exact ⟨rfl, rfl⟩
  · intro resp hr
    cases hj : resp.jsonBody with
    | ok j =>
      rw [request_ok dumpsJ fetch token path params page_num logs resp j hr hj]
    | error e =>
      rw [request_ok_badjson dumpsJ fetch token path params page_num logs resp e hr hj]

/-- C5 witness: the connection-failure case on a concrete request. -/
theorem c5_request_logging_witness :
    fetchFail (requestUrl "me".toList) (requestParams "tok".toList "me".toList none) =
      Except.error "connection error".toList ∧
    ((request dumpsW fetchFail "tok".toList "me".toList none 0 []).2.2 = [] ∧
     (request dumpsW fetchFail "tok".toList "me".toList none 0 []).1 =
       Json.obj [("error".toList, Json.str "connection error".toList)]) :=
  ⟨rfl, (c5_request_logging dumpsW fetchFail "tok".toList "me".toList none 0 []).1
    "connection error".toList rfl⟩

/-! ## C1: credential redaction in log entries -/

theorem lookupParam_eraseParam (m : ParamMap) (k : Str) :
    lookupParam (eraseParam m k) k = none := by
  induction m with
  | nil => rfl
  | cons kv rest ih =>
    obtain ⟨k', v'⟩ := kv
    by_cases h : k' = k
    · simpa [eraseParam, List.filter_cons, h] using ih
    · simpa [eraseParam, List.filter_cons, h, lookupParam] using ih

theorem mem_eraseParam (m : ParamMap) (k : Str) (kv : Str × Str)
    (h : kv ∈ eraseParam m k) : kv ∈ m ∧ kv.1 ≠ k := by
  have := List.mem_filter.mp h
  exact ⟨this.1, of_decide_eq_true this.2⟩

/-- C1: every log entry `_log_step` appends records a parameter map from
which the `access_token` binding has been removed, and a payload in
which every occurrence of the live token has been replaced by
`REDACTED_TOKEN` — whichever serializer output or raw text it started
from (so the token is scrubbed even inside error messages or nested
JSON).  Hence, whenever the credential reaches the parameters only under
the name `access_token` (which is how `_request` inserts it) and the
token is nonempty and shares no character with the redaction marker,
neither the recorded parameters nor the recorded payload contain the
literal credential. -/
theorem c1_log_redaction (dumpsJ : Json → Str) (token endpoint : Str)
    (m : ParamMap) (resp : HttpResp) (page_num : Nat) (logs : List LogEntry)
    (htok : token ≠ [])
    (hmark : ∀ c ∈ token, c ∉ redactedMarker)
    (hparams : ∀ kv ∈ m, kv.1 ≠ accessTokenKey →
      ¬ token <:+: kv.1 ∧ ¬ token <:+: kv.2) :
    log_step dumpsJ token endpoint (some m) resp page_num logs =
      logs ++ [logEntryOf dumpsJ token endpoint (some m) resp page_num] ∧
    lookupParam
      (logEntryOf dumpsJ token endpoint (some m) resp page_num).parameters_used
      accessTokenKey = none ∧
    (∀ kv ∈ (logEntryOf dumpsJ token endpoint (some m) resp page_num).parameters_used,
      ¬ token <:+: kv.1 ∧ ¬ token <:+: kv.2) ∧
    ¬ token <:+:
      (logEntryOf dumpsJ token endpoint (some m) resp page_num).raw_payload := by
  refine ⟨rfl, ?_, ?_, ?_⟩
  · simp only [logEntryOf, safeParams]
    exact lookupParam_eraseParam m accessTokenKey
  · simp only [logEntryOf, safeParams]
    intro kv hkv
    obtain ⟨hmem, hne⟩ := mem_eraseParam m accessTokenKey kv hkv
    exact hparams kv hmem hne
  · simp only [logEntryOf]
    cases resp.jsonBody with
    | ok j => exact scrub_no_token token (dumpsJ j) htok hmark
    | error e => exact scrub_no_token token resp.text htok hmark

/-- Parameters handed to the logger in the C1 witness: a field list plus
the live credential under `access_token`. -/
def paramsLeaky : ParamMap :=
  [("fields".toList, "id,caption".toList), (accessTokenKey, "seekrit42".toList)]

/-- A response that leaks the live credential inside an error message. -/
def respLeaky : HttpResp :=
  ⟨400,
   Except.ok (Json.obj [("error".toList, Json.str "bad token seekrit42".toList)]),
   "bad token seekrit42".toList⟩

/-- C1 witness: a concrete leaky response and credential-bearing
parameter dict. -/
theorem c1_log_redaction_witness :
    ("seekrit42".toList ≠ [] ∧ (∀ c ∈ "seekrit42".toList, c ∉ redactedMarker) ∧
     (∀ kv ∈ paramsLeaky, kv.1 ≠ accessTokenKey →
       ¬ "seekrit42".toList <:+: kv.1 ∧ ¬ "seekrit42".toList <:+: kv.2)) ∧
    (log_step dumpsW "seekrit42".toList "ep".toList (some paramsLeaky) respLeaky 0 [] =
      [] ++ [logEntryOf dumpsW "seekrit42".toList "ep".toList (some paramsLeaky)
        respLeaky 0] ∧
     lookupParam
       (logEntryOf dumpsW "seekrit42".toList "ep".toList (some paramsLeaky)
         respLeaky 0).parameters_used accessTokenKey = none ∧
     (∀ kv ∈ (logEntryOf dumpsW "seekrit42".toList "ep".toList (some paramsLeaky)
         respLeaky 0).parameters_used,
       ¬ "seekrit42".toList <:+: kv.1 ∧ ¬ "seekrit42".toList <:+: kv.2) ∧
     ¬ "seekrit42".toList <:+:
       (logEntryOf dumpsW "seekrit42".toList "ep".toList (some paramsLeaky)
         respLeaky 0).raw_payload) :=
  ⟨⟨by decide, by decide, by decide⟩,
   c1_log_redaction dumpsW "seekrit42".toList "ep".toList paramsLeaky respLeaky 0 []
     (by decide) (by decide) (by decide)⟩

/-! ## Behaviour of the pagination loop -/

theorem paginateLoop_none (dumpsJ : Json → Str) (fetch : Fetcher) (token : Str)
    (fuel : Nat) (r : Json) (acc : List Json) (pn : Nat) (logs : List LogEntry)
    (h : getNextStr r = none) :
    paginateLoop dumpsJ fetch token fuel r acc pn logs = some (acc, logs) := by
  unfold paginateLoop
  rw [h]

theorem paginateLoop_stuck (dumpsJ : Json → Str) (fetch : Fetcher) (token : Str)
    (r : Json) (acc : List Json) (pn : Nat) (logs : List LogEntry) (url : Str)
    (h : getNextStr r = some url) :
    paginateLoop dumpsJ fetch token 0 r acc pn logs = none := by
  unfold paginateLoop
  rw [h]

theorem paginateLoop_step (dumpsJ : Json → Str) (fetch : Fetcher) (token : Str)
    (fuel : Nat) (r : Json) (url : Str) (acc : List Json) (pn : Nat)
    (logs : List LogEntry) (h : getNextStr r = some url) :
    paginateLoop dumpsJ fetch token (fuel + 1) r acc pn logs =
      paginateLoop dumpsJ fetch token fuel
        (request dumpsJ fetch token url none (pn + 1) logs).1
        (acc ++ [(request dumpsJ fetch token url none (pn + 1) logs).1])
        (pn + 1) (request dumpsJ fetch token url none (pn + 1) logs).2.2 := by
  conv_lhs => unfold paginateLoop
  rw [h]

/-! ## C2: no iteration cap on a repeating continuation chain -/

/-- Fixture page A: its continuation pointer names page B's URL. -/
def pageA : Json :=
  Json.obj [("paging".toList,
    Json.obj [("next".toList, Json.str "http://b.example/".toList)])]

/-- Fixture page B: its continuation pointer names page A's URL. -/
def pageB : Json :=
  Json.obj [("paging".toList,
    Json.obj [("next".toList, Json.str "http://a.example/".toList)])]

/-- Fixture response carrying page A. -/
def respA : HttpResp := ⟨200, Except.ok pageA, "a".toList⟩

/-- Fixture response carrying page B. -/
def respB : HttpResp := ⟨200, Except.ok pageB, "b".toList⟩

/-- A transport oracle whose continuation pointers repeat: A→B→A→B→…. -/
def fetchRepeat : Fetcher := fun url _ =>
  if url = "http://b.example/".toList then Except.ok respB else Except.ok respA

/-- On the repeating chain the loop consumes all its fuel: whatever page
of the cycle it is on, it never finishes. -/
theorem paginateLoop_repeat (dumpsJ : Json → Str) (token : Str) :
    ∀ (fuel : Nat) (r : Json) (acc : List Json) (pn : Nat) (logs : List LogEntry),
      (r = pageA ∨ r = pageB) →
      paginateLoop dumpsJ fetchRepeat token fuel r acc pn logs = none := by
  intro fuel
  induction fuel with
  | zero =>
    intro r acc pn logs hr
    rcases hr with h | h <;> subst h
    · exact paginateLoop_stuck dumpsJ fetchRepeat token pageA acc pn logs
        "http://b.example/".toList rfl
    · exact paginateLoop_stuck dumpsJ fetchRepeat token pageB acc pn logs
        "http://a.example/".toList rfl
  | succ f ih =>
    intro r acc pn logs hr
    rcases hr with h | h <;> subst h
    · rw [paginateLoop_step dumpsJ fetchRepeat token f pageA
        "http://b.example/".toList acc pn logs rfl]
      rw [request_ok dumpsJ fetchRepeat token "http://b.example/".toList none
        (pn + 1) logs respB pageB rfl rfl]
      exact ih pageB _ _ _ (Or.inr rfl)
    · rw [paginateLoop_step dumpsJ fetchRepeat token f pageB
        "http://a.example/".toList acc pn logs rfl]
      rw [request_ok dumpsJ fetchRepeat token "http://a.example/".toList none
        (pn + 1) logs respA pageA rfl rfl]
      exact ih pageA _ _ _ (Or.inl rfl)

/-- `_get_paginated_data` on the repeating chain: still looping after any
number of iterations. -/
theorem getPaginatedData_repeat_none (dumpsJ : Json → Str) (token : Str)
    (fuel : Nat) (params : ParamMap) (logs : List LogEntry) :
    getPaginatedData dumpsJ fetchRepeat token fuel "http://a.example/".toList
      params logs = none := by
  unfold getPaginatedData
  dsimp only
  rw [request_ok dumpsJ fetchRepeat token "http://a.example/".toList (some params)
    0 logs respA pageA rfl rfl]
  exact paginateLoop_repeat dumpsJ token fuel pageA _ 0 _ (Or.inl rfl)

/-- C2 counterexample: on the repeating chain A→B→A→… the paginator
never stops — there is no iteration count after which it returns, so it
neither stops at a configured cap nor emits any `PaginationLoop` entry
(no such error kind exists in the source). -/
theorem c2_counterexample :
    ¬ ∃ (fuel : Nat) (out : List Json × List LogEntry),
      getPaginatedData dumpsW fetchRepeat "tok".toList fuel
        "http://a.example/".toList [] [] = some out := by
  rintro ⟨fuel, out, hout⟩
  rw [getPaginatedData_repeat_none dumpsW "tok".toList fuel [] []] at hout
  exact Option.noConfusion hout

/-- C2 (amended): `_get_paginated_data` has no iteration cap: on a
response sequence whose continuation pointers repeat (A→B→A→…) the
`while` loop is still running after any finite number of iterations —
for every fuel bound the fuel-indexed model reports the loop unfinished
— and the source defines no `PaginationLoop` error kind or log entry. -/
theorem c2_pagination_no_cap (dumpsJ : Json → Str) (token : Str) (fuel : Nat)
    (params : ParamMap) (logs : List LogEntry) :
    getPaginatedData dumpsJ fetchRepeat token fuel "http://a.example/".toList
      params logs = none :=
  getPaginatedData_repeat_none dumpsJ token fuel params logs

/-! ## C6: pagination over a finite linked chain -/

/-- Loop invariant for a finite chain: standing on page `k` with `d`
pages still ahead and at least `d` fuel, the loop appends exactly the
remaining pages `k+1 … N-1` in order and stops. -/
theorem paginateLoop_chain (dumpsJ : Json → Str) (fetch : Fetcher) (token : Str)
    (N : Nat) (pages : Nat → Json) (resps : Nat → HttpResp) (urls : Nat → Str)
    (hfetchi : ∀ i, 1 ≤ i → i < N → ∀ pm,
      fetch (requestUrl (urls i)) pm = Except.ok (resps i))
    (hbody : ∀ i, i < N → (resps i).jsonBody = Except.ok (pages i))
    (hnext : ∀ i, i + 1 < N → getNextStr (pages i) = some (urls (i + 1)))
    (hlast : getNextStr (pages (N - 1)) = none) :
    ∀ (d k fuel : Nat), k < N → N - 1 - k = d → d ≤ fuel →
      ∀ (acc : List Json) (pn : Nat) (logs : List LogEntry),
        ∃ logsFin, paginateLoop dumpsJ fetch token fuel (pages k) acc pn logs =
          some (acc ++ (List.range d).map (fun j => pages (k + 1 + j)), logsFin) := by
  intro d
  induction d with
  | zero =>
    intro k fuel hk hd _ acc pn logs
    have hk' : k = N - 1 := by omega
    subst hk'
    refine ⟨logs, ?_⟩
    rw [paginateLoop_none dumpsJ fetch token fuel _ acc pn logs hlast]
    simp
  | succ d ih =>
    intro k fuel hk hd hfuel acc pn logs
    have hk1 : k + 1 < N := by omega
    have hnx : getNextStr (pages k) = some (urls (k + 1)) := hnext k hk1
    cases fuel with
    | zero => omega
    | succ f =>
      rw [paginateLoop_step dumpsJ fetch token f (pages k) (urls (k + 1)) acc pn
        logs hnx]
      rw [request_ok dumpsJ fetch token (urls (k + 1)) none (pn + 1) logs
        (resps (k + 1)) (pages (k + 1)) (hfetchi (k + 1) (by omega) hk1 _)
        (hbody (k + 1) hk1)]
      dsimp only
      obtain ⟨lf, hlf⟩ := ih (k + 1) f hk1 (by omega) (by omega)
        (acc ++ [pages (k + 1)]) (pn + 1)
        (logs ++ [logEntryOf dumpsJ token (endpointOf (urls (k + 1)))
          (requestParams token (urls (k + 1)) none) (resps (k + 1)) (pn + 1)])
      refine ⟨lf, ?_⟩
      rw [hlf]
      have hmap : (List.range (d + 1)).map (fun j => pages (k + 1 + j)) =
          pages (k + 1) :: (List.range d).map (fun j => pages (k + 1 + 1 + j)) := by
        rw [List.range_succ_eq_map, List.map_cons, List.map_map]
        refine congrArg (pages (k + 1 + 0) :: ·) ?_
        refine List.map_congr_left ?_
        intro j _
        show pages (k + 1 + (j + 1)) = pages (k + 1 + 1 + j)
        congr 1
        omega
      rw [hmap]
      simp [List.append_assoc]

/-- C6: over a finite chain of `N` responses where pages `0 … N-2` each
carry a `paging.next` URL and page `N-1` carries none,
`_get_paginated_data` returns exactly the `N` pages in fetch order
(page 0 first) and stops at the page without a continuation pointer:
`N - 1` fuel — one unit per continuation fetch — already suffices. -/
theorem c6_pagination_n_pages (dumpsJ : Json → Str) (fetch : Fetcher)
    (token : Str) (N : Nat) (pages : Nat → Json) (resps : Nat → HttpResp)
    (urls : Nat → Str) (path : Str) (params : ParamMap) (logs : List LogEntry)
    (fuel : Nat) (hN : 1 ≤ N) (hfuel : N - 1 ≤ fuel)
    (hfetch0 : ∀ pm, fetch (requestUrl path) pm = Except.ok (resps 0))
    (hfetchi : ∀ i, 1 ≤ i → i < N → ∀ pm,
      fetch (requestUrl (urls i)) pm = Except.ok (resps i))
    (hbody : ∀ i, i < N → (resps i).jsonBody = Except.ok (pages i))
    (hnext : ∀ i, i + 1 < N → getNextStr (pages i) = some (urls (i + 1)))
    (hlast : getNextStr (pages (N - 1)) = none) :
    ∃ logsFin, getPaginatedData dumpsJ fetch token fuel path params logs =
      some ((List.range N).map pages, logsFin) := by
  unfold getPaginatedData
  dsimp only
  rw [request_ok dumpsJ fetch token path (some params) 0 logs (resps 0) (pages 0)
    (hfetch0 _) (hbody 0 (by omega))]
  dsimp only
  obtain ⟨lf, hlf⟩ := paginateLoop_chain dumpsJ fetch token N pages resps urls
    hfetchi hbody hnext hlast (N - 1) 0 fuel (by omega) (by omega) hfuel
    [pages 0] 0
    (logs ++ [logEntryOf dumpsJ token (endpointOf path)
      (requestParams token path (some params)) (resps 0) 0])
  refine ⟨lf, ?_⟩
  rw [hlf]
  have hall : (List.range N).map pages =
      pages 0 :: (List.range (N - 1)).map (fun j => pages (0 + 1 + j)) := by
    conv_lhs => rw [show N = (N - 1) + 1 by omega]
    rw [List.range_succ_eq_map, List.map_cons, List.map_map]
    refine congrArg (pages 0 :: ·) (List.map_congr_left ?_)
    intro j _
    show pages (j + 1) = pages (0 + 1 + j)
    congr 1
    omega
  rw [hall]
  simp

/-- Fixture chain for C6: page 0 links to page 1, page 1 is last. -/
def pageW : Nat → Json := fun i =>
  if i = 0 then
    Json.obj [("data".toList, Json.arr [Json.str "post1".toList]),
      ("paging".toList,
        Json.obj [("next".toList, Json.str "http://n.example/1".toList)])]
  else
    Json.obj [("data".toList, Json.arr [Json.str "post2".toList])]

/-- Fixture responses carrying the chain pages. -/
def respW : Nat → HttpResp := fun i => ⟨200, Except.ok (pageW i), "w".toList⟩

/-- Fixture continuation URLs of the chain. -/
def urlsW : Nat → Str := fun _ => "http://n.example/1".toList

/-- Transport oracle serving the two-page chain. -/
def fetchW : Fetcher := fun url _ =>
  if url = "http://n.example/1".toList then Except.ok (respW 1)
  else Except.ok (respW 0)

/-- C6 witness: the concrete two-page chain yields exactly its two pages
in order. -/
theorem c6_pagination_n_pages_witness :
    (1 ≤ 2 ∧ 2 - 1 ≤ 3) ∧
    (∃ logsFin, getPaginatedData dumpsW fetchW "tok".toList 3 "me/media".toList
      [] [] = some ((List.range 2).map pageW, logsFin)) :=
  ⟨⟨by decide, by decide⟩,
   c6_pagination_n_pages dumpsW fetchW "tok".toList 2 pageW respW urlsW
     "me/media".toList [] [] 3 (by decide) (by decide)
     (fun _ => rfl)
     (by
       intro i h1 h2 pm
       have hi : i = 1 := by omega
       subst hi
       rfl)
     (fun i _ => rfl)
     (by
       intro i h
       have hi : i = 0 := by omega
       subst hi
       rfl)
     rfl⟩

/-! ## C3: identifier uniqueness and duplicate counting -/

theorem assocLookup_append_some {β : Type} (m l : List (Str × β)) (u : Str)
    (d : β) (h : assocLookup m u = some d) :
    assocLookup (m ++ l) u = some d := by
  induction m with
  | nil => simp [assocLookup] at h
  | cons kv rest ih =>
    obtain ⟨k', v'⟩ := kv
    by_cases hk : k' = u
    · simpa [assocLookup, hk] using h
    · simp only [assocLookup, if_neg hk] at h ⊢
      exact ih h

theorem assocLookup_append_single_ne {β : Type} (m : List (Str × β)) (u k : Str)
    (v : β) (h : u ≠ k) :
    assocLookup (m ++ [(k, v)]) u = assocLookup m u := by
  induction m with
  | nil =>
    have hk : ¬ k = u := fun hh => h hh.symm
    simp [assocLookup, hk]
  | cons kv rest ih =>
    obtain ⟨k', v'⟩ := kv
    by_cases hk : k' = u
    · simp [assocLookup, hk]
    · simp only [List.cons_append, assocLookup, if_neg hk]
      exact ih

theorem assocLookup_none_iff {β : Type} (m : List (Str × β)) (u : Str) :
    assocLookup m u = none ↔ u ∉ keysOf m := by
  induction m with
  | nil => simp [assocLookup, keysOf]
  | cons kv rest ih =>
    obtain ⟨k', v'⟩ := kv
    by_cases hk : k' = u
    · subst hk
      constructor
      · intro hnone
        simp [assocLookup] at hnone
      · intro hmem
        simp only [keysOf, List.map_cons, List.mem_cons] at hmem
        exact absurd (Or.inl trivial) hmem
    · constructor
      · intro hnone hmem
        simp only [assocLookup, if_neg hk] at hnone
        simp only [keysOf, List.map_cons, List.mem_cons] at hmem
        rcases hmem with hmem | hmem
        · exact hk hmem.symm
        · exact (ih.mp hnone) hmem
      · intro hmem
        simp only [assocLookup, if_neg hk]
        refine ih.mpr ?_
        intro hmem2
        refine hmem ?_
        simp only [keysOf, List.map_cons, List.mem_cons]
        exact Or.inr hmem2

theorem not_containsKey_lookup_none {β : Type} (m : List (Str × β)) (k : Str)
    (h : ¬ containsKey m k = true) : assocLookup m k = none := by
  cases hl : assocLookup m k with
  | none => rfl
  | some d => exact absurd (by simp [containsKey, hl]) h

theorem mergePortal_nodup (p : List (Str × ArtData)) :
    ∀ acc : List (Str × ArtData), (keysOf acc).Nodup →
      (keysOf (mergePortal acc p).1).Nodup := by
  induction p with
  | nil => intro acc h; exact h
  | cons kv rest ih =>
    intro acc h
    by_cases hc : containsKey acc kv.1
    · simpa [mergePortal, hc] using ih acc h
    · have hnotin : kv.1 ∉ keysOf acc :=
        (assocLookup_none_iff acc kv.1).mp (not_containsKey_lookup_none acc kv.1 hc)
      have hnew : (keysOf (acc ++ [kv])).Nodup := by
        simp only [keysOf, List.map_append]
        exact List.Nodup.append h (List.nodup_singleton _)
          (by simpa [List.disjoint_singleton, keysOf] using hnotin)
      simpa [mergePortal, hc] using ih (acc ++ [kv]) hnew

theorem mergePortal_preserves (p : List (Str × ArtData)) :
    ∀ (acc : List (Str × ArtData)) (u : Str) (d : ArtData),
      assocLookup acc u = some d →
      assocLookup (mergePortal acc p).1 u = some d := by
  induction p with
  | nil => intro acc u d h; exact h
  | cons kv rest ih =>
    intro acc u d h
    by_cases hc : containsKey acc kv.1
    · simpa [mergePortal, hc] using ih acc u d h
    · simpa [mergePortal, hc] using
        ih (acc ++ [kv]) u d (assocLookup_append_some acc [kv] u d h)

theorem mergePortal_count (p : List (Str × ArtData)) :
    ∀ acc : List (Str × ArtData), (keysOf p).Nodup →
      (mergePortal acc p).2 =
        (p.filter (fun kv => containsKey acc kv.1)).length := by
  induction p with
  | nil => intro acc _; rfl
  | cons kv rest ih =>
    intro acc hnd
    simp only [keysOf, List.map_cons, List.nodup_cons] at hnd
    obtain ⟨hk, hrest⟩ := hnd
    by_cases hc : containsKey acc kv.1
    · have h1 : (mergePortal acc (kv :: rest)).2 = (mergePortal acc rest).2 + 1 := by
        simp [mergePortal, hc]
      have h2 : (kv :: rest).filter (fun kv => containsKey acc kv.1) =
          kv :: rest.filter (fun kv => containsKey acc kv.1) := by
        simp [List.filter_cons, hc]
      rw [h1, h2, ih acc hrest, List.length_cons]
    · have hcb : containsKey acc kv.1 = false := by simpa using hc
      have h1 : (mergePortal acc (kv :: rest)).2 =
          (mergePortal (acc ++ [kv]) rest).2 := by
        simp [mergePortal, hc]
      have h2 : (kv :: rest).filter (fun kv => containsKey acc kv.1) =
          rest.filter (fun kv => containsKey acc kv.1) := by
        simp [List.filter_cons, hcb]
      rw [h1, h2, ih (acc ++ [kv]) hrest]
      refine congrArg List.length (List.filter_congr ?_)
      intro x hx
      have hxne : x.1 ≠ kv.1 := fun hEq => hk (hEq ▸ List.mem_map_of_mem Prod.fst hx)
      simp only [containsKey]
      rw [assocLookup_append_single_ne acc x.1 kv.1 kv.2 hxne]

theorem scrapeArticles_nodup {τ : Type} (getTree : Str → Option τ)
    (extractData : τ → Str → Option ArtData) (name : Str) (links : List Str) :
    ∀ results : List (Str × ArtData), (keysOf results).Nodup →
      (keysOf (scrapeArticles getTree extractData name links results)).Nodup := by
  induction links with
  | nil => intro results h; exact h
  | cons url rest ih =>
    intro results h
    by_cases hc : containsKey results url
    · simpa [scrapeArticles, hc] using ih results h
    · cases ht : getTree url with
      | none => simpa [scrapeArticles, hc, ht] using ih results h
      | some t =>
        cases hd : extractData t url with
        | none => simpa [scrapeArticles, hc, ht, hd] using ih results h
        | some dat =>
          have hnotin : url ∉ keysOf results :=
            (assocLookup_none_iff results url).mp
              (not_containsKey_lookup_none results url hc)
          have hnew : (keysOf (results ++
              [(url, dat ++ [("newspaper".toList, name)])])).Nodup := by
            simp only [keysOf, List.map_append]
            exact List.Nodup.append h (List.nodup_singleton _)
              (by simpa [List.disjoint_singleton, keysOf] using hnotin)
          simpa [scrapeArticles, hc, ht, hd] using ih _ hnew

theorem scrapeFrom_nodup {τ : Type} (getTree : Str → Option τ)
    (extractLinks : τ → Str → Option (List Str))
    (extractData : τ → Str → Option ArtData) (name : Str) (urls : List Str) :
    ∀ results : List (Str × ArtData), (keysOf results).Nodup →
      (keysOf (scrapeFrom getTree extractLinks extractData name urls
        results)).Nodup := by
  induction urls with
  | nil => intro r h; exact h
  | cons u rest ih =>
    intro r h
    cases ht : getTree u with
    | none => simpa [scrapeFrom, ht] using ih r h
    | some tree =>
      cases hl : extractLinks tree u with
      | none => simpa [scrapeFrom, ht, hl] using ih r h
      | some links =>
        simpa [scrapeFrom, ht, hl] using
          ih _ (scrapeArticles_nodup getTree extractData name links r h)

/-- C3: within one orchestrator run no two records share an identifier
(article URL): the run result and every per-portal `scrape` result have
pairwise-distinct keys; when a portal's records are merged into the run,
an already-present identifier keeps its first-seen copy, and the
per-portal duplicate counter equals the number of records of the portal
whose identifier was already present — one increment per dropped
occurrence. -/
theorem c3_dedup_run (τ : Type) (getTree : Str → Option τ)
    (extractLinks : τ → Str → Option (List Str))
    (extractData : τ → Str → Option ArtData) (name : Str) (urls : List Str)
    (portals : List (List (Str × ArtData))) (acc p : List (Str × ArtData))
    (u : Str) (d : ArtData) :
    (keysOf (scrapeAll portals)).Nodup ∧
    (keysOf (scrape getTree extractLinks extractData name urls)).Nodup ∧
    (assocLookup acc u = some d →
      assocLookup (mergePortal acc p).1 u = some d) ∧
    ((keysOf p).Nodup →
      (mergePortal acc p).2 =
        (p.filter (fun kv => containsKey acc kv.1)).length) := by
  refine ⟨?_, ?_, mergePortal_preserves p acc u d, mergePortal_count p acc⟩
  · have hall : ∀ (ps : List (List (Str × ArtData)))
        (acc0 : List (Str × ArtData)), (keysOf acc0).Nodup →
        (keysOf (scrapeAllFrom acc0 ps)).Nodup := by
      intro ps
      induction ps with
      | nil => intro a h; exact h
      | cons q qs ihq =>
        intro a h
        simpa [scrapeAllFrom] using ihq _ (mergePortal_nodup q a h)
    exact hall portals [] (by simp [keysOf])
  · exact scrapeFrom_nodup getTree extractLinks extractData name urls []
      (by simp [keysOf])

/-- C3 witness: merging a portal carrying one colliding URL and one
fresh URL keeps the first-seen record and counts exactly one
duplicate. -/
theorem c3_dedup_run_witness :
    (assocLookup [("http://u1".toList, ([] : ArtData))] "http://u1".toList =
        some [] ∧
     (keysOf [("http://u1".toList, ([("k".toList, "v".toList)] : ArtData)),
        ("http://u2".toList, [])]).Nodup) ∧
    (assocLookup (mergePortal [("http://u1".toList, ([] : ArtData))]
        [("http://u1".toList, [("k".toList, "v".toList)]),
         ("http://u2".toList, [])]).1 "http://u1".toList = some [] ∧
     (mergePortal [("http://u1".toList, ([] : ArtData))]
        [("http://u1".toList, [("k".toList, "v".toList)]),
         ("http://u2".toList, [])]).2 =
       ([("http://u1".toList, ([("k".toList, "v".toList)] : ArtData)),
         ("http://u2".toList, [])].filter
         (fun kv => containsKey [("http://u1".toList, ([] : ArtData))]
           kv.1)).length) :=
  ⟨⟨by decide, by decide⟩,
   ⟨(c3_dedup_run Unit (fun _ => none) (fun _ _ => none) (fun _ _ => none)
       [] [] [] [("http://u1".toList, [])]
       [("http://u1".toList, [("k".toList, "v".toList)]),
        ("http://u2".toList, [])] "http://u1".toList []).2.2.1 (by decide),
    (c3_dedup_run Unit (fun _ => none) (fun _ _ => none) (fun _ _ => none)
       [] [] [] [("http://u1".toList, [])]
       [("http://u1".toList, [("k".toList, "v".toList)]),
        ("http://u2".toList, [])] "http://u1".toList []).2.2.2 (by decide)⟩⟩
/-! ## C4: per-field isolation in article extraction -/

/-- The common per-field pattern of the v2 extractors,
`if xs: data[f] = xs[0].strip()` inside its own `try/except`: a raising
selector or an empty match list leaves the field empty, a nonempty match
stores the first text stripped. -/
def firstStripped : SelRes → Str
  | Except.ok (h :: _) => strip h
  | _ => []

/-- The common body pattern
`" ".join([t.strip() for t in texts if t.strip()])` inside its own
`try/except`, assigned unconditionally: a raising selector leaves the
field empty.  (MDZ's summary guards on a nonempty match list first, but
the join over no matches is the empty string either way.) -/
def joinStrippedSel : SelRes → Str
  | Except.ok ts =>
    joinSpace (ts.filterMap (fun t => if strip t = [] then none else some (strip t)))
  | Except.error _ => []

/-- The two-stage fallback pattern (Diario UNO's summary, El Sol's and
MDZ's date): the second selector is consulted only when the first
succeeded with no matches; an exception in either call aborts the block
and leaves the field empty. -/
def fallbackFirstStripped : SelRes → SelRes → Str
  | Except.ok (h :: _), _ => strip h
  | Except.ok [], s2 => firstStripped s2
  | Except.error _, _ => []

/-- `DiarioUnoScraper.extract_article_data`: first-match-stripped
headline (`h1.title`), date (`time`) and author (`span.author-name`);
summary tries `h2` first and falls back to `p.ignore-parser` when the
first selector matches nothing; body joins the stripped nonempty
`article-body` paragraph texts (no trailing strip).  Every field sits in
its own `try/except` over an all-empty initial dict. -/
def diarioUnoArticleData
    (selHeadline selSummary1 selSummary2 selBody selDate selAuthor : SelRes) :
    ArticleData :=
  ⟨firstStripped selHeadline,
   fallbackFirstStripped selSummary1 selSummary2,
   joinStrippedSel selBody,
   firstStripped selDate,
   firstStripped selAuthor⟩

/-- `ElSolScraper.extract_article_data`: first-match-stripped headline
(`h1`), summary (`newspack-post-subtitle`) and author (`a.url.fn`);
date tries `time/@datetime` and falls back to `time/text()`; body joins
the stripped nonempty `entry-content` paragraph texts. -/
def elSolArticleData
    (selHeadline selSummary selBody selDate1 selDate2 selAuthor : SelRes) :
    ArticleData :=
  ⟨firstStripped selHeadline,
   firstStripped selSummary,
   joinStrippedSel selBody,
   fallbackFirstStripped selDate1 selDate2,
   firstStripped selAuthor⟩

/-- `MDZScraper.extract_article_data`: like El Sol (two-stage date,
first-match headline and author) except the summary joins all stripped
nonempty texts of the `news-detail__lead` block. -/
def mdzArticleData
    (selHeadline selSummary selBody selDate1 selDate2 selAuthor : SelRes) :
    ArticleData :=
  ⟨firstStripped selHeadline,
   joinStrippedSel selSummary,
   joinStrippedSel selBody,
   fallbackFirstStripped selDate1 selDate2,
   firstStripped selAuthor⟩

/-- The field extraction of `scrapping_process.article_data`
(web_scrapping.py) once the article root matched: the same per-field
`try/except` blocks as the v2 Los Andes extractor (an empty
headline/date/author match raises `IndexError` on `[0]`, caught by the
same per-field `except`, so it behaves as no match; the body block's
`body_divs[0]` raising on an empty match is the `Except.ok none`
outcome). -/
def webScrappingFields (selHeadline selSummary selDate selAuthor : SelRes)
    (selBody : Except Unit (Option (List Str))) : ArticleData :=
  ⟨(match selHeadline with
    | Except.ok (h :: _) => strip h
    | _ => []),
   (match selSummary with
    | Except.ok ts => strip (joinSpace ts)
    | Except.error _ => []),
   (match selBody with
    | Except.ok (some ts) =>
      strip (joinSpace (ts.filterMap
        (fun t => if strip t = [] then none else some (strip t))))
    | _ => []),
   (match selDate with
    | Except.ok (d :: _) => strip d
    | _ => []),
   (match selAuthor with
    | Except.ok (a :: _) => strip a
    | _ => [])⟩

/-- `scrapping_process.article_data`: when the article root selector
fails the function returns `None` (the whole-record discard happens only
at the root, never for a field); otherwise it fills the fields from
their own selectors. -/
def webScrappingArticleData (root : Except Unit Unit)
    (selHeadline selSummary selDate selAuthor : SelRes)
    (selBody : Except Unit (Option (List Str))) : Option ArticleData :=
  match root with
  | Except.error _ => none
  | Except.ok _ =>
    some (webScrappingFields selHeadline selSummary selDate selAuthor selBody)

/-- C4: in every concrete source extractor — Los Andes, Diario UNO,
El Sol and MDZ of `newspapers_scraper_v2.py`, and the Los Andes variant
of `web_scrapping.py` — each field of the returned record is a function
of its own selector outcome alone: a selector that raises (or matches
nothing) leaves exactly that field as the empty string, while every
field whose selector succeeds is populated from its own matches,
whatever happened to the other fields; and a record is returned in every
case (the only `None` return, in `web_scrapping.py`, is triggered by the
root selector, not by any field). -/
theorem c4_field_isolation (sH sS sD sA : SelRes)
    (sB : Except Unit (Option (List Str)))
    (tH tS1 tS2 tB tD tA : SelRes)
    (uH uS uB uD1 uD2 uA : SelRes)
    (vH vS vB vD1 vD2 vA : SelRes)
    (wroot : Except Unit Unit) (wH wS wD wA : SelRes)
    (wB : Except Unit (Option (List Str))) :
    ((sH = Except.error () →
      (losAndesArticleData (Except.ok ()) sH sS sD sA sB).headline = []) ∧
    (sH = Except.ok [] →
      (losAndesArticleData (Except.ok ()) sH sS sD sA sB).headline = []) ∧
    (sS = Except.error () →
      (losAndesArticleData (Except.ok ()) sH sS sD sA sB).summary = []) ∧
    (sD = Except.error () →
      (losAndesArticleData (Except.ok ()) sH sS sD sA sB).date = []) ∧
    (sD = Except.ok [] →
      (losAndesArticleData (Except.ok ()) sH sS sD sA sB).date = []) ∧
    (sA = Except.error () →
      (losAndesArticleData (Except.ok ()) sH sS sD sA sB).author = []) ∧
    (sA = Except.ok [] →
      (losAndesArticleData (Except.ok ()) sH sS sD sA sB).author = []) ∧
    (sB = Except.error () →
      (losAndesArticleData (Except.ok ()) sH sS sD sA sB).body = []) ∧
    (sB = Except.ok none →
      (losAndesArticleData (Except.ok ()) sH sS sD sA sB).body = []) ∧
    (∀ h rest, sH = Except.ok (h :: rest) →
      (losAndesArticleData (Except.ok ()) sH sS sD sA sB).headline = strip h) ∧
    (∀ ts, sS = Except.ok ts →
      (losAndesArticleData (Except.ok ()) sH sS sD sA sB).summary =
        strip (joinSpace ts)) ∧
    (∀ dd rest, sD = Except.ok (dd :: rest) →
      (losAndesArticleData (Except.ok ()) sH sS sD sA sB).date = strip dd) ∧
    (∀ a rest, sA = Except.ok (a :: rest) →
      (losAndesArticleData (Except.ok ()) sH sS sD sA sB).author = strip a) ∧
    (∀ ts, sB = Except.ok (some ts) →
      (losAndesArticleData (Except.ok ()) sH sS sD sA sB).body =
        strip (joinSpace (ts.filterMap
          (fun t => if strip t = [] then none else some (strip t)))))) ∧
    ((tD = Except.error () →
      (diarioUnoArticleData tH tS1 tS2 tB tD tA).date = []) ∧
    (∀ h rest, tH = Except.ok (h :: rest) →
      (diarioUnoArticleData tH tS1 tS2 tB tD tA).headline = strip h) ∧
    (tH = Except.error () →
      (diarioUnoArticleData tH tS1 tS2 tB tD tA).headline = []) ∧
    (tH = Except.ok [] →
      (diarioUnoArticleData tH tS1 tS2 tB tD tA).headline = []) ∧
    (tD = Except.ok [] →
      (diarioUnoArticleData tH tS1 tS2 tB tD tA).date = []) ∧
    (∀ dd rest, tD = Except.ok (dd :: rest) →
      (diarioUnoArticleData tH tS1 tS2 tB tD tA).date = strip dd) ∧
    (tA = Except.error () →
      (diarioUnoArticleData tH tS1 tS2 tB tD tA).author = []) ∧
    (tA = Except.ok [] →
      (diarioUnoArticleData tH tS1 tS2 tB tD tA).author = []) ∧
    (∀ a rest, tA = Except.ok (a :: rest) →
      (diarioUnoArticleData tH tS1 tS2 tB tD tA).author = strip a) ∧
    (tS1 = Except.error () →
      (diarioUnoArticleData tH tS1 tS2 tB tD tA).summary = []) ∧
    (∀ h rest, tS1 = Except.ok (h :: rest) →
      (diarioUnoArticleData tH tS1 tS2 tB tD tA).summary = strip h) ∧
    (tS1 = Except.ok [] → tS2 = Except.error () →
      (diarioUnoArticleData tH tS1 tS2 tB tD tA).summary = []) ∧
    (tS1 = Except.ok [] → tS2 = Except.ok [] →
      (diarioUnoArticleData tH tS1 tS2 tB tD tA).summary = []) ∧
    (∀ h rest, tS1 = Except.ok [] → tS2 = Except.ok (h :: rest) →
      (diarioUnoArticleData tH tS1 tS2 tB tD tA).summary = strip h) ∧
    (tB = Except.error () →
      (diarioUnoArticleData tH tS1 tS2 tB tD tA).body = []) ∧
    (∀ ts, tB = Except.ok ts →
      (diarioUnoArticleData tH tS1 tS2 tB tD tA).body =
        joinSpace (ts.filterMap
          (fun t => if strip t = [] then none else some (strip t))))) ∧
    ((∀ dd rest, uD1 = Except.ok [] → uD2 = Except.ok (dd :: rest) →
      (elSolArticleData uH uS uB uD1 uD2 uA).date = strip dd) ∧
    (uD1 = Except.error () →
      (elSolArticleData uH uS uB uD1 uD2 uA).date = []) ∧
    (uD1 = Except.ok [] → uD2 = Except.error () →
      (elSolArticleData uH uS uB uD1 uD2 uA).date = []) ∧
    (uD1 = Except.ok [] → uD2 = Except.ok [] →
      (elSolArticleData uH uS uB uD1 uD2 uA).date = []) ∧
    (∀ dd rest, uD1 = Except.ok (dd :: rest) →
      (elSolArticleData uH uS uB uD1 uD2 uA).date = strip dd) ∧
    (uH = Except.error () →
      (elSolArticleData uH uS uB uD1 uD2 uA).headline = []) ∧
    (uH = Except.ok [] →
      (elSolArticleData uH uS uB uD1 uD2 uA).headline = []) ∧
    (∀ h rest, uH = Except.ok (h :: rest) →
      (elSolArticleData uH uS uB uD1 uD2 uA).headline = strip h) ∧
    (uS = Except.error () →
      (elSolArticleData uH uS uB uD1 uD2 uA).summary = []) ∧
    (uS = Except.ok [] →
      (elSolArticleData uH uS uB uD1 uD2 uA).summary = []) ∧
    (∀ h rest, uS = Except.ok (h :: rest) →
      (elSolArticleData uH uS uB uD1 uD2 uA).summary = strip h) ∧
    (uA = Except.error () →
      (elSolArticleData uH uS uB uD1 uD2 uA).author = []) ∧
    (uA = Except.ok [] →
      (elSolArticleData uH uS uB uD1 uD2 uA).author = []) ∧
    (∀ a rest, uA = Except.ok (a :: rest) →
      (elSolArticleData uH uS uB uD1 uD2 uA).author = strip a) ∧
    (uB = Except.error () →
      (elSolArticleData uH uS uB uD1 uD2 uA).body = []) ∧
    (∀ ts, uB = Except.ok ts →
      (elSolArticleData uH uS uB uD1 uD2 uA).body =
        joinSpace (ts.filterMap
          (fun t => if strip t = [] then none else some (strip t))))) ∧
    ((∀ ts, vS = Except.ok ts →
      (mdzArticleData vH vS vB vD1 vD2 vA).summary =
        joinSpace (ts.filterMap
          (fun t => if strip t = [] then none else some (strip t)))) ∧
    (vS = Except.error () →
      (mdzArticleData vH vS vB vD1 vD2 vA).summary = []) ∧
    (vD1 = Except.error () →
      (mdzArticleData vH vS vB vD1 vD2 vA).date = []) ∧
    (vD1 = Except.ok [] → vD2 = Except.error () →
      (mdzArticleData vH vS vB vD1 vD2 vA).date = []) ∧
    (vD1 = Except.ok [] → vD2 = Except.ok [] →
      (mdzArticleData vH vS vB vD1 vD2 vA).date = []) ∧
    (∀ dd rest, vD1 = Except.ok (dd :: rest) →
      (mdzArticleData vH vS vB vD1 vD2 vA).date = strip dd) ∧
    (∀ dd rest, vD1 = Except.ok [] → vD2 = Except.ok (dd :: rest) →
      (mdzArticleData vH vS vB vD1 vD2 vA).date = strip dd) ∧
    (vH = Except.error () →
      (mdzArticleData vH vS vB vD1 vD2 vA).headline = []) ∧
    (vH = Except.ok [] →
      (mdzArticleData vH vS vB vD1 vD2 vA).headline = []) ∧
    (∀ h rest, vH = Except.ok (h :: rest) →
      (mdzArticleData vH vS vB vD1 vD2 vA).headline = strip h) ∧
    (vA = Except.error () →
      (mdzArticleData vH vS vB vD1 vD2 vA).author = []) ∧
    (vA = Except.ok [] →
      (mdzArticleData vH vS vB vD1 vD2 vA).author = []) ∧
    (∀ a rest, vA = Except.ok (a :: rest) →
      (mdzArticleData vH vS vB vD1 vD2 vA).author = strip a) ∧
    (vB = Except.error () →
      (mdzArticleData vH vS vB vD1 vD2 vA).body = []) ∧
    (∀ ts, vB = Except.ok ts →
      (mdzArticleData vH vS vB vD1 vD2 vA).body =
        joinSpace (ts.filterMap
          (fun t => if strip t = [] then none else some (strip t))))) ∧
    ((wroot = Except.error () →
      webScrappingArticleData wroot wH wS wD wA wB = none) ∧
    (webScrappingArticleData (Except.ok ()) wH wS wD wA wB =
      some (webScrappingFields wH wS wD wA wB)) ∧
    (wD = Except.error () →
      (webScrappingFields wH wS wD wA wB).date = []) ∧
    (wD = Except.ok [] →
      (webScrappingFields wH wS wD wA wB).date = []) ∧
    (∀ dd rest, wD = Except.ok (dd :: rest) →
      (webScrappingFields wH wS wD wA wB).date = strip dd) ∧
    (wH = Except.error () →
      (webScrappingFields wH wS wD wA wB).headline = []) ∧
    (wH = Except.ok [] →
      (webScrappingFields wH wS wD wA wB).headline = []) ∧
    (∀ h rest, wH = Except.ok (h :: rest) →
      (webScrappingFields wH wS wD wA wB).headline = strip h) ∧
    (wS = Except.error () →
      (webScrappingFields wH wS wD wA wB).summary = []) ∧
    (∀ ts, wS = Except.ok ts →
      (webScrappingFields wH wS wD wA wB).summary = strip (joinSpace ts)) ∧
    (wA = Except.error () →
      (webScrappingFields wH wS wD wA wB).author = []) ∧
    (wA = Except.ok [] →
      (webScrappingFields wH wS wD wA wB).author = []) ∧
    (∀ a rest, wA = Except.ok (a :: rest) →
      (webScrappingFields wH wS wD wA wB).author = strip a) ∧
    (wB = Except.error () →
      (webScrappingFields wH wS wD wA wB).body = []) ∧
    (wB = Except.ok none →
      (webScrappingFields wH wS wD wA wB).body = []) ∧
    (∀ ts, wB = Except.ok (some ts) →
      (webScrappingFields wH wS wD wA wB).body =
        strip (joinSpace (ts.filterMap
          (fun t => if strip t = [] then none else some (strip t)))))) := by
  repeat' apply And.intro
  all_goals intros
  all_goals subst_vars
  all_goals rfl

/-- C4 witness: concrete pages for all five extractors — a failing date
selector leaves the date empty while the other fields stay populated
(Los Andes, Diario UNO), El Sol's date falls back to the second
selector, MDZ's summary joins its lead texts, and a failing root in
`web_scrapping.py` (not a field) is the only discarded record. -/
theorem c4_field_isolation_witness :
    (losAndesArticleData (Except.ok ()) (Except.ok [" Big News ".toList])
      (Except.ok ["sum".toList]) (Except.error ()) (Except.ok ["Ana".toList])
      (Except.ok (some ["x".toList]))).date = [] ∧
    (losAndesArticleData (Except.ok ()) (Except.ok [" Big News ".toList])
      (Except.ok ["sum".toList]) (Except.error ()) (Except.ok ["Ana".toList])
      (Except.ok (some ["x".toList]))).headline = strip " Big News ".toList ∧
    (diarioUnoArticleData (Except.ok ["T1".toList]) (Except.ok [])
      (Except.ok ["S2".toList]) (Except.ok ["b ".toList]) (Except.error ())
      (Except.ok ["A".toList])).date = [] ∧
    (diarioUnoArticleData (Except.ok ["T1".toList]) (Except.ok [])
      (Except.ok ["S2".toList]) (Except.ok ["b ".toList]) (Except.error ())
      (Except.ok ["A".toList])).headline = strip "T1".toList ∧
    (elSolArticleData (Except.ok ["T2".toList]) (Except.ok []) (Except.error ())
      (Except.ok []) (Except.ok [" d2 ".toList])
      (Except.error ())).date = strip " d2 ".toList ∧
    (mdzArticleData (Except.ok ["T3".toList])
      (Except.ok [" x ".toList, "  ".toList]) (Except.error ())
      (Except.error ()) (Except.ok []) (Except.ok [])).summary =
        joinSpace (([" x ".toList, "  ".toList] : List Str).filterMap
          (fun t => if strip t = [] then none else some (strip t))) ∧
    webScrappingArticleData (Except.error ()) (Except.ok []) (Except.ok [])
      (Except.ok []) (Except.ok []) (Except.ok none) = none := by
  have T := c4_field_isolation
    (Except.ok [" Big News ".toList]) (Except.ok ["sum".toList])
    (Except.error ()) (Except.ok ["Ana".toList]) (Except.ok (some ["x".toList]))
    (Except.ok ["T1".toList]) (Except.ok []) (Except.ok ["S2".toList])
    (Except.ok ["b ".toList]) (Except.error ()) (Except.ok ["A".toList])
    (Except.ok ["T2".toList]) (Except.ok []) (Except.error ())
    (Except.ok []) (Except.ok [" d2 ".toList]) (Except.error ())
    (Except.ok ["T3".toList]) (Except.ok [" x ".toList, "  ".toList])
    (Except.error ()) (Except.error ()) (Except.ok []) (Except.ok [])
    (Except.error ()) (Except.ok []) (Except.ok []) (Except.ok [])
    (Except.ok []) (Except.ok none)
  exact ⟨T.1.2.2.2.1 rfl,
    T.1.2.2.2.2.2.2.2.2.2.1 " Big News ".toList [] rfl,
    T.2.1.1 rfl,
    T.2.1.2.1 "T1".toList [] rfl,
    T.2.2.1.1 " d2 ".toList [] rfl rfl,
    T.2.2.2.1.1 [" x ".toList, "  ".toList] rfl,
    T.2.2.2.2.1 rfl⟩
/-! ## C7: absolute links from the listing extractors -/

theorem isAbsolute_losAndesResolve (l : Str) :
    isAbsolute (losAndesResolve l) = true := by
  unfold losAndesResolve
  by_cases h : isAbsolute l
  · rw [if_pos h]
    exact h
  · rw [if_neg h]
    rfl

/-- C7 counterexample: a relative href on a Diario UNO listing page is
dropped by `extract_article_links` — neither returned as is nor resolved
against the source's domain — while the Los Andes extractor does resolve
it; so "every source extractor resolves relative links" fails. -/
theorem c7_counterexample :
    diarioUnoLinks ["/politica/nota-1".toList] = [] ∧
    losAndesLinks ["/politica/nota-1".toList] =
      [losAndesDomain ++ "/politica/nota-1".toList] := by
  constructor
  · rfl
  · rfl

/-- C7 (amended): every URL any of the four extractors returns is
absolute (starts with `http`); the Los Andes extractor resolves a
relative href by prefixing its known domain, while the Diario UNO,
El Sol and MDZ extractors return exactly the hrefs that were already
absolute, omitting relative ones instead of resolving them. -/
theorem c7_links_absolute (hrefs : List Str) :
    (∀ l ∈ losAndesLinks hrefs, isAbsolute l = true) ∧
    (∀ l ∈ hrefs, isAbsolute l = true → l ∈ losAndesLinks hrefs) ∧
    (∀ l ∈ hrefs, isAbsolute l = false →
      losAndesDomain ++ l ∈ losAndesLinks hrefs) ∧
    (∀ l, l ∈ diarioUnoLinks hrefs ↔ l ∈ hrefs ∧ isAbsolute l = true) ∧
    (∀ l, l ∈ elSolLinks hrefs ↔ l ∈ hrefs ∧ isAbsolute l = true) ∧
    (∀ l, l ∈ mdzLinks hrefs ↔ l ∈ hrefs ∧ isAbsolute l = true) := by
  refine ⟨?_, ?_, ?_, fun l => List.mem_filter, fun l => List.mem_filter,
    fun l => List.mem_filter⟩
  · intro l hl
    obtain ⟨x, hx, hres⟩ := List.mem_map.mp hl
    rw [← hres]
    exact isAbsolute_losAndesResolve x
  · intro l hl habs
    have hres : losAndesResolve l = l := by
      unfold losAndesResolve
      rw [if_pos habs]
    exact hres ▸ List.mem_map_of_mem losAndesResolve hl
  · intro l hl habs
    have hres : losAndesResolve l = losAndesDomain ++ l := by
      unfold losAndesResolve
      simp [habs]
    exact hres ▸ List.mem_map_of_mem losAndesResolve hl

/-- C7 witness: a mixed listing with one relative and one absolute href;
the relative one is resolved by the Los Andes extractor. -/
theorem c7_links_absolute_witness :
    ("/x".toList ∈ (["/x".toList, "http://a.example/p".toList] : List Str) ∧
      isAbsolute "/x".toList = false) ∧
    losAndesDomain ++ "/x".toList ∈
      losAndesLinks ["/x".toList, "http://a.example/p".toList] :=
  ⟨⟨by decide, by decide⟩,
   (c7_links_absolute ["/x".toList, "http://a.example/p".toList]).2.2.1
     "/x".toList (by decide) (by decide)⟩
